import Mathlib

/-
Verification of the zgbc Python binding (src/bindings/python/zgbc.py) over a
shallow embedding.  The binding is a ctypes wrapper around the native libzgbc
core; the core itself is not part of the supplied sources, so where a property
depends on native behavior the native call is modelled from the design
specification (such definitions carry a doc comment starting with
"Modelled from the spec:").  Everything else is translated directly from the
Python source.
-/

namespace Zgbc

/-- Embeds the module-level constants of zgbc.py. -/
def FRAME_WIDTH : Nat := 160

/-- Embeds `FRAME_HEIGHT = 144`. -/
def FRAME_HEIGHT : Nat := 144

/-- Embeds `SAMPLE_RATE = 44_100`. -/
def SAMPLE_RATE : Nat := 44100

namespace Buttons

/-- Embeds `Buttons.A = 1 << 0`. -/
def A : Nat := 1 <<< 0

/-- Embeds `Buttons.B = 1 << 1`. -/
def B : Nat := 1 <<< 1

/-- Embeds `Buttons.SELECT = 1 << 2`. -/
def SELECT : Nat := 1 <<< 2

/-- Embeds `Buttons.START = 1 << 3`. -/
def START : Nat := 1 <<< 3

/-- Embeds `Buttons.RIGHT = 1 << 4`. -/
def RIGHT : Nat := 1 <<< 4

/-- Embeds `Buttons.LEFT = 1 << 5`. -/
def LEFT : Nat := 1 <<< 5

/-- Embeds `Buttons.UP = 1 << 6`. -/
def UP : Nat := 1 <<< 6

/-- Embeds `Buttons.DOWN = 1 << 7`. -/
def DOWN : Nat := 1 <<< 7

end Buttons

/-- Exceptions the wrapper can raise, with the message; `runtimeErrorFrom`
models `raise RuntimeError(msg) from cause` where the cause is the message of
the chained OSError (or `none` for a `from None` chain). -/
inductive PyErr where
  | typeError (msg : String)
  | runtimeError (msg : String)
  | runtimeErrorFrom (msg : String) (cause : Option String)
  | osError (msg : String)
deriving DecidableEq

/-- The wrapper object's own Python-side state: the stored `_handle`
(a ctypes `c_void_p` result; `none` models both a NULL handle and an absent
attribute). -/
structure PyGameBoy where
  handle : Option Nat
deriving DecidableEq

/-- Python truthiness of an optional integer: `None` and `0` are falsy. -/
def pyTruthy : Option Nat → Bool
  | none => false
  | some n => n != 0

/-- Embeds Python's bitwise `&` on unbounded integers (two's-complement
semantics), the operation used in `set_input`; `Int.land` implements exactly
those semantics. -/
def pyAnd (a b : Int) : Int := Int.land a b

/-- Embeds the ctypes `c_uint8(x)` value conversion, which stores `x`
modulo 2^8. -/
def c_uint8 (x : Int) : Nat := (x % (256 : Int)).toNat

/-- Embeds `GameBoy.set_input`: the 8-bit value `c_uint8(buttons & 0xFF)`
that is passed to `zgbc_set_input` and latched by the core. -/
def set_input (buttons : Int) : Nat := c_uint8 (pyAnd buttons 255)

/-- Embeds `GameBoy.__del__`: swap-reads `_handle` (defaulting to None),
clears it, then calls `zgbc_free` only when the old value was truthy.
Returns the updated object and whether `zgbc_free` was invoked. -/
def del (gb : PyGameBoy) : PyGameBoy × Bool :=
  let handle := gb.handle
  (⟨none⟩, pyTruthy handle)

/-- Total number of `zgbc_free` calls made by running `__del__` `n` times in
sequence on an object. -/
def delFrees (gb : PyGameBoy) : Nat → Nat
  | 0 => 0
  | n + 1 => (if (del gb).2 then 1 else 0) + delFrees (del gb).1 n

/-- Embeds `GameBoy.load_rom` on a bytes argument: the data is copied into a
C buffer and `zgbc_load_rom(handle, buf, len(data))` is called; a RuntimeError
is raised iff the native call returns false.  The native behavior is an
explicit parameter.  Returns the (unchanged) wrapper object and the outcome. -/
def load_rom (zgbc_load_rom : Option Nat → List Nat → Nat → Bool)
    (gb : PyGameBoy) (data : List Nat) : PyGameBoy × Except PyErr Unit :=
  if zgbc_load_rom gb.handle data data.length then (gb, .ok ())
  else (gb, .error (.runtimeError "zgbc_load_rom() failed"))

/-- Low 8 bits of a natural number extracted by bitwise and. -/
theorem nat_and_255 (n : Nat) : n &&& 255 = n % 256 := by
  apply Nat.eq_of_testBit_eq
  intro i
  rw [Nat.testBit_and]
  rw [show (255 : Nat) = 2 ^ 8 - 1 from rfl, show (256 : Nat) = 2 ^ 8 from rfl]
  rw [Nat.testBit_two_pow_sub_one, Nat.testBit_mod_two_pow]
  exact Bool.and_comm _ _

/-- Bitwise difference from the 8-bit mask is complement of the low 8 bits. -/
theorem nat_ldiff_255 (n : Nat) : Nat.ldiff 255 n = 255 ^^^ (n % 256) := by
  apply Nat.eq_of_testBit_eq
  intro i
  rw [Nat.testBit_ldiff, Nat.testBit_xor]
  rw [show (255 : Nat) = 2 ^ 8 - 1 from rfl, show (256 : Nat) = 2 ^ 8 from rfl]
  rw [Nat.testBit_two_pow_sub_one, Nat.testBit_mod_two_pow]
  cases h : Nat.testBit n i <;> cases h8 : decide (i < 8) <;> simp

set_option maxRecDepth 20000 in
/-- Xor with the full 8-bit mask is subtraction from it, below 256. -/
theorem xor_255 : ∀ m, m < 256 → 255 ^^^ m = 255 - m := by decide

/-- Python's `b & 0xFF` equals `b mod 256` for every integer `b`. -/
theorem land_255_eq_emod (b : Int) : Int.land b 255 = b % 256 := by
  cases b with
  | ofNat n =>
      have h : Int.land (Int.ofNat n) 255 = Int.ofNat (n &&& 255) := rfl
      rw [h, nat_and_255]
      simp only [Int.ofNat_eq_natCast]
      omega
  | negSucc n =>
      have h : Int.land (Int.negSucc n) 255 = Int.ofNat (Nat.ldiff 255 n) := rfl
      rw [h, nat_ldiff_255, xor_255 (n % 256) (Nat.mod_lt n (by norm_num)),
        Int.negSucc_eq]
      simp only [Int.ofNat_eq_natCast]
      omega

/-- C6: for every integer `buttons` (including values outside 0..255),
`set_input` latches exactly `buttons mod 2^8` as the 8-bit value passed to the
core, and the `Buttons` bitmask assigns A, B, Select, Start, Right, Left, Up,
Down to bits 0 through 7 respectively. -/
theorem claim_C6_set_input_mask (buttons : Int) :
    (set_input buttons : Int) = buttons % 2 ^ 8
    ∧ Buttons.A = 2 ^ 0 ∧ Buttons.B = 2 ^ 1 ∧ Buttons.SELECT = 2 ^ 2
    ∧ Buttons.START = 2 ^ 3 ∧ Buttons.RIGHT = 2 ^ 4 ∧ Buttons.LEFT = 2 ^ 5
    ∧ Buttons.UP = 2 ^ 6 ∧ Buttons.DOWN = 2 ^ 7 := by
  refine ⟨?_, rfl, rfl, rfl, rfl, rfl, rfl, rfl, rfl⟩
  show ((c_uint8 (pyAnd buttons 255) : Nat) : Int) = buttons % 2 ^ 8
  unfold c_uint8 pyAnd
  rw [land_255_eq_emod]
  omega

/-- C2: `load_rom` raises a RuntimeError iff the native `zgbc_load_rom` call
returns false; on success it returns normally with no payload; and in either
case the wrapper instance is left unchanged, hence valid and reusable for a
subsequent load attempt. -/
theorem claim_C2_load_rom_error_iff (f : Option Nat → List Nat → Nat → Bool)
    (gb : PyGameBoy) (data : List Nat) :
    ((load_rom f gb data).2 = .error (.runtimeError "zgbc_load_rom() failed")
        ↔ f gb.handle data data.length = false)
    ∧ ((load_rom f gb data).2 = .ok () ↔ f gb.handle data data.length = true)
    ∧ (load_rom f gb data).1 = gb := by
  unfold load_rom
  cases h : f gb.handle data data.length <;> simp [h]

/-- Running `__del__` on an object whose handle is already cleared never calls
`zgbc_free`. -/
theorem delFrees_cleared (m : Nat) : delFrees ⟨none⟩ m = 0 := by
  induction m with
  | zero => rfl
  | succ k ih => simpa [delFrees, del, pyTruthy] using ih

/-- C10: finalization is at-most-once: over any number of `__del__` runs the
native `zgbc_free` is invoked at most once; `__del__` clears the stored
handle, every subsequent finalization is a no-op, and an object whose handle
was never created frees nothing. -/
theorem claim_C10_del_at_most_once (gb : PyGameBoy) (n : Nat) :
    delFrees gb n ≤ 1 ∧ (del gb).1.handle = none
    ∧ (∀ m, delFrees (del gb).1 m = 0) ∧ (del ⟨none⟩).2 = false := by
  refine ⟨?_, rfl, fun m => delFrees_cleared m, rfl⟩
  cases n with
  | zero => simp [delFrees]
  | succ k =>
      show (if (del gb).2 then 1 else 0) + delFrees (del gb).1 k ≤ 1
      rw [show (del gb).1 = ⟨none⟩ from rfl, delFrees_cleared]
      cases (del gb).2 <;> simp

/-- Lifecycle native calls the constructor can issue, for recording the call
sequence `__init__` makes. -/
inductive NCall where
  | newCall
  | loadRomCall (handle : Option Nat) (data : List Nat) (len : Nat)
deriving DecidableEq

/-- Embeds `GameBoy.__init__` given the `zgbc_new` result and the native
`zgbc_load_rom` behavior: stores the new handle, raises RuntimeError when the
handle is falsy, then calls `load_rom` when a ROM argument was supplied (whose
failure also raises).  Returns the outcome and the native lifecycle calls
made, in order. -/
def init (zgbc_new : Option Nat) (zgbc_load_rom : Option Nat → List Nat → Nat → Bool)
    (rom : Option (List Nat)) : Except PyErr PyGameBoy × List NCall :=
  let handle := zgbc_new
  if pyTruthy handle then
    match rom with
    | none => (.ok ⟨handle⟩, [.newCall])
    | some data =>
        match load_rom zgbc_load_rom ⟨handle⟩ data with
        | (gb, .ok _) => (.ok gb, [.newCall, .loadRomCall handle data data.length])
        | (_, .error e) => (.error e, [.newCall, .loadRomCall handle data data.length])
  else (.error (.runtimeError "zgbc_new() returned NULL"), [.newCall])

/-- C7 counterexample: with a non-null handle from `zgbc_new` and a supplied
ROM whose native load fails, construction raises even though the create call
did not return a null handle — so "raises exactly when the native create call
returns a null handle" is false. -/
theorem claim_C7_counterexample :
    (init (some 1) (fun _ _ _ => false) (some [0])).1 =
      .error (.runtimeError "zgbc_load_rom() failed")
    ∧ pyTruthy (some 1) = true := ⟨rfl, rfl⟩

/-- C7 (amended): construction fails exactly when the native create call
returns a falsy (null) handle or a supplied ROM argument fails to load;
otherwise it produces an instance holding the new handle, and whenever a ROM
argument was supplied and the handle was truthy, `load_rom` is invoked on it
(after `zgbc_new`) before construction returns. -/
theorem claim_C7_init_amended (zn : Option Nat)
    (zl : Option Nat → List Nat → Nat → Bool) (rom : Option (List Nat)) :
    ((init zn zl rom).1 = .ok ⟨zn⟩ ↔
      (pyTruthy zn = true ∧ ∀ data, rom = some data → zl zn data data.length = true))
    ∧ ((∃ e, (init zn zl rom).1 = .error e) ↔
      ¬(pyTruthy zn = true ∧ ∀ data, rom = some data → zl zn data data.length = true))
    ∧ (∀ data, rom = some data → pyTruthy zn = true →
      (init zn zl rom).2 = [.newCall, .loadRomCall zn data data.length]) := by
  unfold init load_rom
  cases htr : pyTruthy zn with
  | false => simp [htr]
  | true =>
      cases rom with
      | none => simp [htr]
      | some data => cases hl : zl zn data data.length <;> simp [htr, hl]

/-- C7 witness: the amended theorem applied at a concrete successful
construction with a supplied ROM. -/
theorem claim_C7_init_amended_witness :
    (init (some 1) (fun _ _ _ => true) (some [7, 7])).2 =
      [.newCall, .loadRomCall (some 1) [7, 7] 2] :=
  (claim_C7_init_amended (some 1) (fun _ _ _ => true) (some [7, 7])).2.2
    [7, 7] rfl rfl

/-- Modelled from the spec: the native core state visible to the headless
toggles — the graphics-render flag, the audio-render flag, with every other
piece of core state abstracted into `rest` (the spec's contract for the
toggles is that only the corresponding subsystem's output production is
affected). -/
structure CoreState (α : Type) where
  renderGraphics : Bool
  renderAudio : Bool
  rest : α
deriving DecidableEq

/-- Modelled from the spec: `zgbc_set_render_graphics` sets the
graphics-render toggle and nothing else. -/
def zgbc_set_render_graphics (s : CoreState α) (g : Bool) : CoreState α :=
  { s with renderGraphics := g }

/-- Modelled from the spec: `zgbc_set_render_audio` sets the audio-render
toggle and nothing else. -/
def zgbc_set_render_audio (s : CoreState α) (a : Bool) : CoreState α :=
  { s with renderAudio := a }

/-- Embeds `GameBoy.set_headless`: forwards the graphics flag to
`zgbc_set_render_graphics` and then the audio flag to
`zgbc_set_render_audio`; the wrapper object itself is untouched. -/
def set_headless (gb : PyGameBoy) (s : CoreState α) (graphics audio : Bool) :
    PyGameBoy × CoreState α :=
  (gb, zgbc_set_render_audio (zgbc_set_render_graphics s graphics) audio)

/-- C8: `set_headless` forwards the graphics flag to the graphics-render
toggle and the audio flag to the audio-render toggle, and changes nothing
else: neither the wrapper object nor any other core state. -/
theorem claim_C8_set_headless (gb : PyGameBoy) (s : CoreState α)
    (graphics audio : Bool) :
    set_headless gb s graphics audio =
      (gb, { renderGraphics := graphics, renderAudio := audio, rest := s.rest }) :=
  rfl

/-- Modelled from the spec: the bus state relevant to the boot overlay — the
overlay-active latch, the internal boot image, the cartridge ROM contents,
and the register/RAM space reached by other writes. -/
structure Bus where
  bootActive : Bool
  bootImage : Nat → Nat
  cartRom : Nat → Nat
  io : Nat → Nat

/-- Modelled from the spec: `zgbc_write` performs the same side-effecting
write the bus would perform; a write to the designated register 0xFF50
permanently disables the boot overlay. -/
def zgbc_write (b : Bus) (addr v : Nat) : Bus :=
  { b with
    bootActive := if addr = 0xFF50 then false else b.bootActive
    io := fun a => if a = addr then v else b.io a }

/-- Modelled from the spec: bus read — addresses 0x0000–0x00FF come from the
boot image while the overlay is active, other reads below 0x8000 come from
cartridge ROM, the rest from the register/RAM space. -/
def busRead (b : Bus) (addr : Nat) : Nat :=
  if addr < 0x100 && b.bootActive then b.bootImage addr
  else if addr < 0x8000 then b.cartRom addr
  else b.io addr

/-- Embeds `GameBoy.skip_boot`: a single native call
`zgbc_write(handle, 0xFF50, 1)` and nothing else. -/
def skip_boot (gb : PyGameBoy) (b : Bus) : PyGameBoy × Bus :=
  (gb, zgbc_write b 0xFF50 1)

/-- C5: `skip_boot` is observationally identical to issuing the single raw
bus write of value 1 to address 0xFF50 directly; afterwards the boot overlay
is disabled and a read of address 0x0000 returns the cartridge's first ROM
byte, not the boot image's. -/
theorem claim_C5_skip_boot (gb : PyGameBoy) (b : Bus) :
    skip_boot gb b = (gb, zgbc_write b 0xFF50 1)
    ∧ (skip_boot gb b).2.bootActive = false
    ∧ busRead (skip_boot gb b).2 0 = b.cartRom 0 := by
  refine ⟨rfl, rfl, ?_⟩
  simp [skip_boot, zgbc_write, busRead]

/-- Modelled from the spec: dots per scanline. -/
def DOTS_PER_LINE : Nat := 456

/-- Modelled from the spec: scanlines per frame (visible lines plus the
V-Blank block). -/
def LINES_PER_FRAME : Nat := 154

/-- Modelled from the spec: the fixed total tick count of one frame. -/
def TICKS_PER_FRAME : Nat := DOTS_PER_LINE * LINES_PER_FRAME

/-- Modelled from the spec: the frame-driver state the tick-count property
depends on — the PPU's current scanline and the running total of consumed
clock ticks. -/
structure Driver where
  line : Nat
  ticks : Nat
deriving DecidableEq

/-- Modelled from the spec: advance the PPU state machine by one full
scanline, consuming its fixed tick count. -/
def stepLine (d : Driver) : Driver :=
  { line := (d.line + 1) % LINES_PER_FRAME, ticks := d.ticks + DOTS_PER_LINE }

/-- Modelled from the spec: run scanlines until the PPU reports frame
completion (the line counter wraps back to 0); fuelled by the line count. -/
def frameLoop : Nat → Driver → Driver
  | 0, d => d
  | fuel + 1, d =>
      let d2 := stepLine d
      if d2.line = 0 then d2 else frameLoop fuel d2

/-- Modelled from the spec: the native `zgbc_frame` runs the frame loop to
completion and only then returns. -/
def zgbc_frame (d : Driver) : Driver := frameLoop LINES_PER_FRAME d

/-- Embeds `GameBoy.frame`: exactly one native `zgbc_frame` call; the wrapper
object is untouched and there is no return payload. -/
def frame (gb : PyGameBoy) (d : Driver) : PyGameBoy × Driver := (gb, zgbc_frame d)

/-- Modelled from the spec: a successful ROM load (re)initializes the driver
at the start of a frame with no ticks consumed yet. -/
def load_driver : Driver := { line := 0, ticks := 0 }

/-- The driver after `n` repeated `frame` calls. -/
def frameN : Nat → Driver → Driver
  | 0, d => d
  | n + 1, d => frameN n (zgbc_frame d)

/-- The frame loop run with exactly the remaining-line fuel lands on line 0
having consumed one tick per dot of every remaining line. -/
theorem frameLoop_exact : ∀ (fuel : Nat) (d : Driver), 1 ≤ fuel →
    d.line + fuel = LINES_PER_FRAME →
    frameLoop fuel d = ⟨0, d.ticks + fuel * DOTS_PER_LINE⟩ := by
  intro fuel
  induction fuel with
  | zero => intro d h; omega
  | succ k ih =>
      intro d _ hline
      show (if (stepLine d).line = 0 then stepLine d else frameLoop k (stepLine d)) = _
      cases k with
      | zero =>
          have h1 : (stepLine d).line = 0 := by
            show (d.line + 1) % LINES_PER_FRAME = 0
            have : d.line + 1 = LINES_PER_FRAME := by omega
            simp [this]
          rw [if_pos h1]
          have h2 : (stepLine d).ticks = d.ticks + 1 * DOTS_PER_LINE := by
            show d.ticks + DOTS_PER_LINE = d.ticks + 1 * DOTS_PER_LINE
            omega
          cases hs : stepLine d
          simp_all
      | succ j =>
          have hlt : d.line + 1 < LINES_PER_FRAME := by omega
          have h1 : (stepLine d).line = d.line + 1 := by
            show (d.line + 1) % LINES_PER_FRAME = d.line + 1
            exact Nat.mod_eq_of_lt hlt
          have h0 : ¬(stepLine d).line = 0 := by omega
          rw [if_neg h0]
          have := ih (stepLine d) (by omega) (by
            show (stepLine d).line + (j + 1) = LINES_PER_FRAME
            omega)
          rw [this]
          show Driver.mk 0 ((stepLine d).ticks + (j + 1) * DOTS_PER_LINE) = _
          have : (stepLine d).ticks = d.ticks + DOTS_PER_LINE := rfl
          rw [this]
          have : d.ticks + DOTS_PER_LINE + (j + 1) * DOTS_PER_LINE
              = d.ticks + (j + 1 + 1) * DOTS_PER_LINE := by ring
          rw [this]

/-- One `zgbc_frame` call from a frame boundary runs to the next frame
boundary, consuming exactly the fixed per-frame tick count. -/
theorem zgbc_frame_boundary (d : Driver) (h : d.line = 0) :
    zgbc_frame d = ⟨0, d.ticks + TICKS_PER_FRAME⟩ := by
  unfold zgbc_frame TICKS_PER_FRAME
  rw [frameLoop_exact LINES_PER_FRAME d (by norm_num [LINES_PER_FRAME]) (by omega)]
  have : LINES_PER_FRAME * DOTS_PER_LINE = DOTS_PER_LINE * LINES_PER_FRAME :=
    Nat.mul_comm _ _
  rw [this]

/-- C3: loading a ROM and then calling `frame` N times consumes exactly
N times the fixed total tick count per frame; every frame call runs to
completion (the driver is returned exactly at a frame boundary, line 0),
never yielding a partial frame. -/
theorem claim_C3_frame_ticks (n : Nat) :
    frameN n load_driver = ⟨0, n * TICKS_PER_FRAME⟩
    ∧ ∀ gb d, frame gb d = (gb, zgbc_frame d) := by
  refine ⟨?_, fun gb d => rfl⟩
  have key : ∀ (m : Nat) (d : Driver), d.line = 0 →
      frameN m d = ⟨0, d.ticks + m * TICKS_PER_FRAME⟩ := by
    intro m
    induction m with
    | zero => intro d h; cases d; simp_all [frameN]
    | succ k ih =>
        intro d h
        show frameN k (zgbc_frame d) = _
        rw [zgbc_frame_boundary d h, ih _ rfl]
        have : d.ticks + TICKS_PER_FRAME + k * TICKS_PER_FRAME
            = d.ticks + (k + 1) * TICKS_PER_FRAME := by ring
        rw [this]
  have := key n load_driver rfl
  simpa [load_driver] using this

/-- Host platform discriminator used by `_default_library_names`
(`sys.platform` starting with "win", equal to "darwin", or anything else). -/
inductive HostOS where
  | windows
  | darwin
  | linux
deriving DecidableEq

/-- Embeds `_default_library_names`. -/
def _default_library_names : HostOS → List String
  | .windows => ["zgbc.dll"]
  | .darwin => ["libzgbc.dylib", "zgbc.dylib"]
  | .linux => ["libzgbc.so"]

/-- Embeds the fallback loop of `load_library`: try `ctypes.CDLL` on each
name in order, remembering the message of the last OSError, and raise a
RuntimeError chained to it when every attempt failed.  `cdll` is the ambient
`ctypes.CDLL` behavior: a handle, or the OSError message it raises. -/
def tryDefaultNames (cdll : String → Except String Nat) :
    Option String → List String → Except PyErr Nat
  | last_err, [] =>
      .error (.runtimeErrorFrom
        "Unable to locate libzgbc; set ZGBC_LIB or pass path explicitly" last_err)
  | _, name :: rest =>
      match cdll name with
      | .ok lib => .ok lib
      | .error err => tryDefaultNames cdll (some err) rest

/-- Embeds `load_library(path)`: an explicit path is handed to `CDLL`
unconditionally; otherwise a truthy (non-empty) `ZGBC_LIB` environment value
is handed to `CDLL`; otherwise the platform-default names are tried in
order. -/
def load_library (cdll : String → Except String Nat)
    (environ_ZGBC_LIB : Option String) (os : HostOS) (path : Option String) :
    Except PyErr Nat :=
  match path with
  | some p => (cdll p).mapError PyErr.osError
  | none =>
      match environ_ZGBC_LIB with
      | some env =>
          if env ≠ "" then (cdll env).mapError PyErr.osError
          else tryDefaultNames cdll none (_default_library_names os)
      | none => tryDefaultNames cdll none (_default_library_names os)

/-- When every name errors, the fallback loop raises the RuntimeError chained
to the error of the last name. -/
theorem tryDefaultNames_all_fail (cdll : String → Except String Nat)
    (f : String → String) :
    ∀ (names : List String) (acc : Option String) (lastName : String),
      (∀ n ∈ names, cdll n = .error (f n)) → names.getLast? = some lastName →
      tryDefaultNames cdll acc names =
        .error (.runtimeErrorFrom
          "Unable to locate libzgbc; set ZGBC_LIB or pass path explicitly"
          (some (f lastName))) := by
  intro names
  induction names with
  | nil => intro acc lastName _ h; simp at h
  | cons name rest ih =>
      intro acc lastName hall hlast
      show (match cdll name with
        | Except.ok lib => Except.ok lib
        | Except.error err => tryDefaultNames cdll (some err) rest) = _
      rw [hall name (by simp)]
      cases rest with
      | nil =>
          simp at hlast
          subst hlast
          rfl
      | cons r rs =>
          have hlast2 : (r :: rs).getLast? = some lastName := by
            rw [List.getLast?_cons_cons] at hlast
            exact hlast
          exact ih (some (f name)) lastName
            (fun n hn => hall n (by simp [hn])) hlast2

/-- The fallback loop returns the first name `CDLL` accepts, in order. -/
theorem tryDefaultNames_first_ok (cdll : String → Except String Nat)
    (f : String → String) :
    ∀ (pre : List String) (name : String) (post : List String)
      (acc : Option String) (h : Nat),
      (∀ n ∈ pre, cdll n = .error (f n)) → cdll name = .ok h →
      tryDefaultNames cdll acc (pre ++ name :: post) = .ok h := by
  intro pre
  induction pre with
  | nil =>
      intro name post acc h _ hok
      show (match cdll name with
        | Except.ok lib => Except.ok lib
        | Except.error err => tryDefaultNames cdll (some err) post) = _
      rw [hok]
  | cons p ps ih =>
      intro name post acc h hall hok
      show (match cdll p with
        | Except.ok lib => Except.ok lib
        | Except.error err => tryDefaultNames cdll (some err) (ps ++ name :: post)) = _
      rw [hall p (by simp)]
      exact ih name post (some (f p)) h (fun n hn => hall n (by simp [hn])) hok

/-- C9: `load_library` resolves the library with fixed precedence — an
explicit path is used unconditionally; otherwise a non-empty `ZGBC_LIB`
environment value is used; otherwise the platform-default names are tried in
order (the first name `CDLL` accepts wins), and when every attempt fails a
RuntimeError chained to the last OSError is raised. -/
theorem claim_C9_load_library (cdll : String → Except String Nat)
    (env : Option String) (os : HostOS) (f : String → String) :
    (∀ p, load_library cdll env os (some p) = (cdll p).mapError PyErr.osError)
    ∧ (∀ s, s ≠ "" →
        load_library cdll (some s) os none = (cdll s).mapError PyErr.osError)
    ∧ ((env = none ∨ env = some "") →
        ∀ pre name post h, _default_library_names os = pre ++ name :: post →
          (∀ n ∈ pre, cdll n = .error (f n)) → cdll name = .ok h →
          load_library cdll env os none = .ok h)
    ∧ ((env = none ∨ env = some "") →
        (∀ n ∈ _default_library_names os, cdll n = .error (f n)) →
        ∃ lastName, (_default_library_names os).getLast? = some lastName ∧
          load_library cdll env os none =
            .error (.runtimeErrorFrom
              "Unable to locate libzgbc; set ZGBC_LIB or pass path explicitly"
              (some (f lastName)))) := by
  refine ⟨fun p => rfl, fun s hs => by simp [load_library, hs], ?_, ?_⟩
  · intro henv pre name post h hsplit hpre hok
    have hbase : load_library cdll env os none =
        tryDefaultNames cdll none (_default_library_names os) := by
      rcases henv with h1 | h1 <;> simp [load_library, h1]
    rw [hbase, hsplit]
    exact tryDefaultNames_first_ok cdll f pre name post none h hpre hok
  · intro henv hall
    have hbase : load_library cdll env os none =
        tryDefaultNames cdll none (_default_library_names os) := by
      rcases henv with h1 | h1 <;> simp [load_library, h1]
    have hne : (_default_library_names os).getLast?.isSome := by
      cases os <;> rfl
    rcases Option.isSome_iff_exists.mp hne with ⟨lastName, hlast⟩
    refine ⟨lastName, hlast, ?_⟩
    rw [hbase]
    exact tryDefaultNames_all_fail cdll f (_default_library_names os) none
      lastName hall hlast

/-- C9 witness: the theorem applied with a concrete always-failing `CDLL` on
the linux platform and no environment override. -/
theorem claim_C9_load_library_witness :
    ∃ lastName, (_default_library_names HostOS.linux).getLast? = some lastName ∧
      load_library (fun _ => .error "not found") none HostOS.linux none =
        .error (.runtimeErrorFrom
          "Unable to locate libzgbc; set ZGBC_LIB or pass path explicitly"
          (some "not found")) :=
  (claim_C9_load_library (fun _ => .error "not found") none HostOS.linux
    (fun _ => "not found")).2.2.2 (Or.inl rfl) (fun _ _ => rfl)

/-- Element formats of the one-dimensional memoryviews the wrapper creates:
`fmtH` is the ctypes int16 array format (h), `fmtI` the ctypes uint32 array
format (I), and `fmtB` the unsigned byte format (B). -/
inductive Fmt where
  | fmtH
  | fmtI
  | fmtB
deriving DecidableEq

/-- Bytes per element of a format. -/
def Fmt.itemsize : Fmt → Nat
  | .fmtH => 2
  | .fmtI => 4
  | .fmtB => 1

/-- Whether CPython treats the format as a byte format for `cast`. -/
def Fmt.isByteFmt : Fmt → Bool
  | .fmtB => true
  | _ => false

/-- Whether the format's elements are signed. -/
def Fmt.isSigned : Fmt → Bool
  | .fmtH => true
  | _ => false

/-- A one-dimensional memoryview: element format and element values. -/
structure Mv where
  fmt : Fmt
  data : List Int
deriving DecidableEq

/-- Embeds Python slicing `mv[:k]` (clamping at the length). -/
def Mv.sliceTo (v : Mv) (k : Nat) : Mv := ⟨v.fmt, v.data.take k⟩

/-- Little-endian byte serialization of a natural number in `w` bytes. -/
def natBytesLE : Nat → Nat → List Nat
  | 0, _ => []
  | w + 1, x => x % 256 :: natBytesLE w (x / 256)

/-- The raw bytes of one buffer element (two's-complement, little-endian). -/
def elemBytes (f : Fmt) (e : Int) : List Nat :=
  natBytesLE f.itemsize (e % ((2 : Int) ^ (8 * f.itemsize))).toNat

/-- The raw bytes of a whole buffer of elements. -/
def flatBytes (f : Fmt) : List Int → List Nat
  | [] => []
  | e :: es => elemBytes f e ++ flatBytes f es

/-- Little-endian value of a byte list. -/
def decodeLE : List Nat → Nat
  | [] => 0
  | b :: bs => b % 256 + 256 * decodeLE bs

/-- Reinterpret an unsigned `bits`-wide value as two's-complement signed. -/
def toSigned (bits : Nat) (x : Nat) : Int :=
  if x < 2 ^ (bits - 1) then (x : Int) else (x : Int) - 2 ^ bits

/-- Decode one element of a format from its little-endian bytes. -/
def decodeElem (f : Fmt) (bs : List Nat) : Int :=
  if f.isSigned then toSigned (8 * f.itemsize) (decodeLE bs) else decodeLE bs

/-- Split raw bytes into consecutive elements of a format; the fuel is the
byte count, which bounds the element count since each element consumes at
least one byte. -/
def decodeElemsAux (f : Fmt) : Nat → List Nat → List Int
  | 0, _ => []
  | _, [] => []
  | fuel + 1, b :: bs =>
      decodeElem f (b :: bs.take (f.itemsize - 1)) ::
        decodeElemsAux f fuel (bs.drop (f.itemsize - 1))

/-- Split raw bytes into consecutive elements of a format. -/
def decodeElems (f : Fmt) (bs : List Nat) : List Int :=
  decodeElemsAux f bs.length bs

/-- Embeds CPython `memoryview.cast(fmt)`: a cast between two non-byte
formats raises TypeError; otherwise the buffer's raw bytes are reinterpreted
in the destination format, raising TypeError when the byte length is not a
multiple of the destination itemsize. -/
def Mv.cast (v : Mv) (tgt : Fmt) : Except PyErr Mv :=
  if v.fmt.isByteFmt = false ∧ tgt.isByteFmt = false then
    .error (.typeError "memoryview: cannot cast between two non-byte formats")
  else
    let bytes := flatBytes v.fmt v.data
    if bytes.length % tgt.itemsize = 0 then .ok ⟨tgt, decodeElems tgt bytes⟩
    else .error (.typeError "memoryview: length is not a multiple of itemsize")

/-- Embeds `GameBoy.get_audio_samples`: allocate a zeroed ctypes int16 array
of `max_samples` elements, let the native `zgbc_get_audio_samples` fill its
first `count` elements and return `count`, then evaluate
`memoryview(buf)[: count * 2].cast("h")`.  The native behavior is the
parameter, giving the returned count and the written samples. -/
def get_audio_samples
    (zgbc_get_audio_samples : Option Nat → Nat → Nat × (Nat → Int))
    (gb : PyGameBoy) (max_samples : Nat) : Except PyErr Mv :=
  let r := zgbc_get_audio_samples gb.handle max_samples
  let count := r.1
  let buf : List Int :=
    (List.range max_samples).map fun i => if i < count then r.2 i else 0
  ((Mv.mk .fmtH buf).sliceTo (count * 2)).cast .fmtH

/-- C1: evaluation of the code — for every native behavior, every instance
and every capacity, `get_audio_samples` raises TypeError: the memoryview of a
ctypes int16 array has the non-byte format h and the cast target h is also
non-byte, so `memoryview(buf)[: count * 2].cast("h")` is rejected by CPython
on every call, and the method never returns the view of `count` samples that
the specification promises. -/
theorem claim_C1_get_audio_samples_always_raises
    (native : Option Nat → Nat → Nat × (Nat → Int)) (gb : PyGameBoy)
    (max_samples : Nat) :
    get_audio_samples native gb max_samples =
      .error (.typeError "memoryview: cannot cast between two non-byte formats") :=
  rfl

/-- Embeds `GameBoy.get_frame_rgba`: allocate a ctypes uint32 array of
`FRAME_WIDTH * FRAME_HEIGHT` elements, let the native `zgbc_get_frame_rgba`
fill it (modelled from the spec: the native call writes the most recently
completed frame's pixels, row-major, here abstracted as a function from pixel
index to pixel value), and return `memoryview(buf).cast("B")`. -/
def get_frame_rgba (zgbc_get_frame_rgba : Option Nat → Nat → Nat)
    (gb : PyGameBoy) : Except PyErr Mv :=
  let buf : List Int :=
    (List.range (FRAME_WIDTH * FRAME_HEIGHT)).map
      fun i => (zgbc_get_frame_rgba gb.handle i : Int)
  (Mv.mk .fmtI buf).cast .fmtB

/-- Serialization in `w` bytes has length `w`. -/
theorem natBytesLE_length (w : Nat) : ∀ x, (natBytesLE w x).length = w := by
  induction w with
  | zero => intro x; rfl
  | succ k ih => intro x; simp [natBytesLE, ih]

/-- Every serialized byte is below 256. -/
theorem natBytesLE_lt (w : Nat) : ∀ x, ∀ b ∈ natBytesLE w x, b < 256 := by
  induction w with
  | zero => intro x b hb; simp [natBytesLE] at hb
  | succ k ih =>
      intro x b hb
      simp only [natBytesLE, List.mem_cons] at hb
      rcases hb with hb | hb
      · omega
      · exact ih _ b hb

/-- An element's byte string has the format's length. -/
theorem elemBytes_length (f : Fmt) (e : Int) :
    (elemBytes f e).length = f.itemsize := natBytesLE_length _ _

/-- A buffer's byte string has length itemsize times the element count. -/
theorem flatBytes_length (f : Fmt) : ∀ l : List Int,
    (flatBytes f l).length = f.itemsize * l.length := by
  intro l
  induction l with
  | nil => rfl
  | cons e es ih =>
      show (elemBytes f e ++ flatBytes f es).length = _
      simp [elemBytes_length, ih, Nat.mul_succ, Nat.add_comm]

/-- Every byte of a buffer's byte string is below 256. -/
theorem flatBytes_lt (f : Fmt) : ∀ (l : List Int), ∀ b ∈ flatBytes f l, b < 256 := by
  intro l
  induction l with
  | nil => intro b hb; simp [flatBytes] at hb
  | cons e es ih =>
      intro b hb
      rcases List.mem_append.mp hb with hb | hb
      · exact natBytesLE_lt _ _ b hb
      · exact ih b hb

/-- Decoding bytes in the byte format is the identity reinterpretation. -/
theorem decodeElems_fmtB : ∀ bs : List Nat, (∀ b ∈ bs, b < 256) →
    decodeElems .fmtB bs = bs.map Int.ofNat := by
  intro bs
  induction bs with
  | nil => intro; rfl
  | cons b rest ih =>
      intro h
      have hb : b < 256 := h b (by simp)
      have hstep : decodeElems .fmtB (b :: rest) =
          decodeElem .fmtB [b] :: decodeElems .fmtB rest := rfl
      rw [hstep, ih fun x hx => h x (by simp [hx])]
      have : decodeElem .fmtB [b] = Int.ofNat b := by
        show ((b % 256 + 256 * 0 : Nat) : Int) = Int.ofNat b
        have hm : b % 256 + 256 * 0 = b := by omega
        rw [hm]
        rfl
      rw [this, List.map_cons]

/-- Casting a uint32-format view to the byte format succeeds and yields the
raw little-endian bytes. -/
theorem cast_fmtI_fmtB (l : List Int) :
    Mv.cast ⟨.fmtI, l⟩ .fmtB = .ok ⟨.fmtB, decodeElems .fmtB (flatBytes .fmtI l)⟩ := by
  unfold Mv.cast
  simp [Fmt.isByteFmt, Fmt.itemsize, Nat.mod_one]

/-- Slicing a buffer's byte string at element `i` yields that element's
bytes. -/
theorem flatBytes_drop_take (f : Fmt) : ∀ (l : List Int) (i : Nat),
    i < l.length →
    ((flatBytes f l).drop (f.itemsize * i)).take f.itemsize
      = elemBytes f (l.getD i 0) := by
  intro l
  induction l with
  | nil => intro i h; simp at h
  | cons e es ih =>
      intro i h
      cases i with
      | zero =>
          show ((elemBytes f e ++ flatBytes f es).drop (f.itemsize * 0)).take
              f.itemsize = elemBytes f e
          rw [Nat.mul_zero, List.drop_zero,
            show f.itemsize = (elemBytes f e).length from (elemBytes_length f e).symm]
          exact List.take_left _ _
      | succ j =>
          show ((elemBytes f e ++ flatBytes f es).drop (f.itemsize * (j + 1))).take
              f.itemsize = elemBytes f (es.getD j 0)
          have hsplit : f.itemsize * (j + 1) = (elemBytes f e).length + f.itemsize * j := by
            rw [elemBytes_length]
            ring
          rw [hsplit, List.drop_append (f.itemsize * j)]
          exact ih j (by simpa using h)

/-- A uint32 element's bytes are the little-endian serialization of its value
reduced modulo 2^32. -/
theorem elemBytes_fmtI (x : Nat) :
    elemBytes .fmtI (Int.ofNat x) = natBytesLE 4 (x % 2 ^ 32) := by
  unfold elemBytes
  congr 1

/-- Element `i` of a mapped range, with default. -/
theorem range_map_getD (g : Nat → Int) (n i : Nat) (h : i < n) :
    ((List.range n).map g).getD i 0 = g i := by
  simp [List.getD_eq_getElem?_getD, List.getElem?_map, List.getElem?_range, h]

/-- C4: `get_frame_rgba` succeeds and returns a freshly filled byte view of
exactly FRAME_WIDTH × FRAME_HEIGHT packed 32-bit RGBA pixels — 92160 bytes —
in which pixel `i` of the most recently completed frame (row-major) occupies
bytes 4i..4i+3 as its 32-bit value in buffer byte order. -/
theorem claim_C4_get_frame_rgba (pix : Option Nat → Nat → Nat)
    (gb : PyGameBoy) :
    ∃ v, get_frame_rgba pix gb = .ok v
      ∧ v.fmt = .fmtB
      ∧ v.data.length = 4 * (FRAME_WIDTH * FRAME_HEIGHT)
      ∧ 4 * (FRAME_WIDTH * FRAME_HEIGHT) = 92160
      ∧ ∀ i, i < FRAME_WIDTH * FRAME_HEIGHT →
          (v.data.drop (4 * i)).take 4 =
            (natBytesLE 4 (pix gb.handle i % 2 ^ 32)).map Int.ofNat := by
  set buf : List Int :=
    (List.range (FRAME_WIDTH * FRAME_HEIGHT)).map
      fun i => (pix gb.handle i : Int) with hbuf
  have hbytes : ∀ b ∈ flatBytes .fmtI buf, b < 256 := flatBytes_lt _ _
  have hcast : get_frame_rgba pix gb =
      .ok ⟨.fmtB, (flatBytes .fmtI buf).map Int.ofNat⟩ := by
    rw [show get_frame_rgba pix gb = Mv.cast ⟨.fmtI, buf⟩ .fmtB from rfl]
    rw [cast_fmtI_fmtB, decodeElems_fmtB _ hbytes]
  have hleng : buf.length = FRAME_WIDTH * FRAME_HEIGHT := by
    rw [hbuf]
    simp
  clear_value buf
  refine ⟨_, hcast, rfl, ?_, by norm_num [FRAME_WIDTH, FRAME_HEIGHT], ?_⟩
  · show ((flatBytes .fmtI buf).map Int.ofNat).length = _
    rw [List.length_map, flatBytes_length, hleng]
    rfl
  · intro i hi
    show ((((flatBytes .fmtI buf).map Int.ofNat).drop (4 * i)).take 4) = _
    rw [← List.map_drop, ← List.map_take]
    have hlen : i < buf.length := by rw [hleng]; exact hi
    rw [show (4 : Nat) = Fmt.itemsize .fmtI from rfl,
      flatBytes_drop_take .fmtI buf i hlen]
    rw [hbuf, range_map_getD _ _ _ hi]
    rw [show ((pix gb.handle i : Nat) : Int) = Int.ofNat (pix gb.handle i) from rfl,
      elemBytes_fmtI]
    rfl

/-- C4 witness: the theorem applied at a concrete native fill (pixel value =
pixel index) and a concrete pixel, recovering pixel 5's bytes. -/
theorem claim_C4_get_frame_rgba_witness :
    (get_frame_rgba (fun _ i => i) ⟨some 1⟩).map
        (fun v => (v.data.drop (4 * 5)).take 4) =
      .ok ((natBytesLE 4 (5 % 2 ^ 32)).map Int.ofNat) := by
  obtain ⟨v, h1, _, _, _, h5⟩ := claim_C4_get_frame_rgba (fun _ i => i) ⟨some 1⟩
  rw [h1, Except.map]
  rw [h5 5 (by norm_num [FRAME_WIDTH, FRAME_HEIGHT])]

end Zgbc
